import Mathlib

/-!
# Roo-NB: verification of the notebook tool layer

Shallow embedding of the Roo-NB VS Code extension (tool registration layers in
`src/extension.ts` and the Roo extension-tools variant) together with the
`NotebookService` orchestration core. The service implementation
(`notebook.ts`) is not part of the available sources; where a property is
decided by it, the corresponding definition is modelled from the specification
and marked `Modelled from the spec:` in its doc comment. Everything else is
translated directly from the TypeScript sources.
-/

/-- A JavaScript number as it matters to the tool layer: either a proper
(integer-valued) number or `NaN`. Inputs reach the validators through
`Number(...)`, which can produce `NaN`. Fractional values play no role in any
property considered here, so the numeric payload is an `Int`. -/
inductive JNum where
  | nan
  | int (n : Int)
deriving DecidableEq, Repr

/-- JavaScript `<` : any comparison involving `NaN` is `false`. -/
def jlt : JNum → JNum → Bool
  | JNum.int a, JNum.int b => decide (a < b)
  | _, _ => false

/-- JavaScript `<=` : any comparison involving `NaN` is `false`. -/
def jle : JNum → JNum → Bool
  | JNum.int a, JNum.int b => decide (a ≤ b)
  | _, _ => false

/-- JavaScript `>` : any comparison involving `NaN` is `false`. -/
def jgt : JNum → JNum → Bool
  | JNum.int a, JNum.int b => decide (a > b)
  | _, _ => false

/-- JavaScript `>=` : any comparison involving `NaN` is `false`. -/
def jge : JNum → JNum → Bool
  | JNum.int a, JNum.int b => decide (a ≥ b)
  | _, _ => false

/-- The range-validation closure passed by the `replace_notebook_cells`,
`execute_notebook_cells` and `delete_notebook_cells` handlers to the
`NotebookService` (`extension.ts` lines 101-108, 170-177, 203-210; the three
closures are textually identical). `startIndex` and `endIndex` are the
`Number(...)`-coerced inputs captured by the closure; `cellCount` is supplied
by the service at call time. A thrown `Error` is embedded as `Except.error`. -/
def rangeValidator (startIndex endIndex : JNum) (cellCount : Int) : Except String (JNum × JNum) :=
  if jlt startIndex (JNum.int 0) || jge startIndex (JNum.int cellCount) then
    Except.error "Start index is out of bounds"
  else if jle endIndex startIndex || jgt endIndex (JNum.int cellCount) then
    Except.error "End index is invalid. Must be greater than start index and not greater than cell count"
  else
    Except.ok (startIndex, endIndex)

/-- The single-index validation closure passed by `modify_notebook_cell_content`
(`extension.ts` lines 137-141). -/
def modifyIndexValidator (cellIndex : JNum) (cellCount : Int) : Except String JNum :=
  if jlt cellIndex (JNum.int 0) || jge cellIndex (JNum.int cellCount) then
    Except.error "Cell index is out of bounds"
  else
    Except.ok cellIndex

/-- Whether an embedded operation result is a success (no error was thrown). -/
def isOkE {ε α : Type} : Except ε α → Bool
  | Except.ok _ => true
  | Except.error _ => false

/-- `vscode.LanguageModelToolResult`: a list of text parts. The constructor
used by the source (`new LanguageModelToolResult([new LanguageModelTextPart(text)])`)
carries no error marking. -/
structure LanguageModelToolResult where
  content : List String
deriving DecidableEq, Repr

/-- `createToolResult` from `extension.ts` lines 13-17: builds the result from
`text` alone; the `isError` parameter appears in the signature (default
`false`) and is passed `true` by every catch branch, but the body never reads
it. -/
def createToolResult (text : String) (isError : Bool) : LanguageModelToolResult :=
  { content := [text] }

/-- The result shape of the Roo extension-tools layer (`part_000`): text
content plus an explicit `isError` flag, set to `true` in every catch branch. -/
structure ToolResponse where
  text : String
  isError : Bool
deriving DecidableEq, Repr

/-- The configuration store `roo-nb.*`: a value is `none` when the caller has
not configured it. -/
structure Config where
  maxOutputSize : Option Nat
  timeoutSeconds : Option Nat
deriving DecidableEq, Repr

/-- `config.get<number>(key, default)`: the configured value if present,
otherwise the supplied default. -/
def configGet (v : Option Nat) (dflt : Nat) : Nat :=
  v.getD dflt

/-- The settings record returned by `getExtensionSettings`. -/
structure ExtensionSettings where
  maxOutputSize : Nat
  timeoutSeconds : Nat
deriving DecidableEq, Repr

/-- `getExtensionSettings` (`extension.ts` lines 20-26, identical in
`part_000` lines 35-41): reads `maxOutputSize` with default 2000 and
`timeoutSeconds` with default 30 from the `roo-nb` configuration. Each tool
handler calls it inside `invoke`, i.e. on the configuration current at call
time, which the embedding reflects by passing the live `Config` to every
handler. -/
def getExtensionSettings (config : Config) : ExtensionSettings :=
  { maxOutputSize := configGet config.maxOutputSize 2000
    timeoutSeconds := configGet config.timeoutSeconds 30 }

/-- A JavaScript value as it can appear in a tool-input field. -/
inductive JSVal where
  | undef
  | boolean (b : Bool)
  | number (n : JNum)
  | string (s : String)
deriving DecidableEq, Repr

/-- JavaScript truthiness of an input field value: `undefined`, `false`, `0`,
`NaN` and the empty string are falsy. -/
def truthy : JSVal → Bool
  | JSVal.undef => false
  | JSVal.boolean b => b
  | JSVal.number JNum.nan => false
  | JSVal.number (JNum.int n) => decide (n ≠ 0)
  | JSVal.string s => decide (s ≠ "")

/-- `Number(v)` coercion as used on index fields. String-to-number parsing is
not modelled (a non-numeric string coerces to `NaN`; no claim depends on
numeric strings). -/
def toNumber : JSVal → JNum
  | JSVal.undef => JNum.nan
  | JSVal.boolean b => JNum.int (if b then 1 else 0)
  | JSVal.number n => n
  | JSVal.string _ => JNum.nan

/-- `String(v)` coercion as used on the `content` field. -/
def jsToString : JSVal → String
  | JSVal.string s => s
  | JSVal.undef => "undefined"
  | JSVal.boolean b => if b then "true" else "false"
  | JSVal.number (JNum.int n) => toString n
  | JSVal.number JNum.nan => "NaN"

/-- `args.noexec === true`: JavaScript strict equality against the boolean
`true` (`extension.ts` lines 74, 98, 134). -/
def strictEqTrue : JSVal → Bool
  | JSVal.boolean true => true
  | _ => false

/-- A notebook cell: kind, text content, and the output records of its most
recent execution (rendered to text). -/
inductive CellKind where
  | code
  | markdown
deriving DecidableEq, Repr

structure Cell where
  kind : CellKind
  content : String
  outputs : List String
deriving DecidableEq, Repr

/-- The active notebook document: an ordered sequence of cells. -/
structure Notebook where
  cells : List Cell
deriving DecidableEq, Repr

namespace NotebookService

/-- Modelled from the spec: `NotebookService.insertCells` (`notebook.ts` is
not in the source tree). §4.2: if `position` is omitted, append at end
(position = current count); otherwise require `0 ≤ position ≤ count`;
inserting is one atomic edit; the returned range is
`[position, position + len(cells))`. The post-insert execution step (run
unless `noexec`) is abstracted by `execStep`, since the execution engine is
external; it receives the post-insert document and the occupied range. -/
def insertCells (execStep : Notebook → Int × Int → Notebook) (newCells : List Cell)
    (insertPosition : Option Int) (noexec : Bool) (nb : Notebook) :
    Except String ((Int × Int) × Notebook) :=
  let count : Int := nb.cells.length
  let pos : Int := insertPosition.getD count
  if pos < 0 ∨ pos > count then
    Except.error "Insert position is out of bounds"
  else
    let inserted : Notebook := { cells := nb.cells.take pos.toNat ++ newCells ++ nb.cells.drop pos.toNat }
    let range : Int × Int := (pos, pos + newCells.length)
    if noexec then Except.ok (range, inserted)
    else Except.ok (range, execStep inserted range)

/-- Modelled from the spec: `NotebookService.deleteCells`. §4.1/§7: the
validator runs against the live cell count and a validation error aborts the
operation with nothing applied; §4.2: `delete(start, end)` removes `[start,
end)`. The service behaviour on a forwarded non-integer (`NaN`) range is not
specified; that branch is arbitrary and no claim depends on it. -/
def deleteCells (validator : Int → Except String (JNum × JNum)) (nb : Notebook) :
    Except String String × Notebook :=
  match validator nb.cells.length with
  | Except.error e => (Except.error e, nb)
  | Except.ok (JNum.int s, JNum.int e) =>
      (Except.ok "Cells deleted", { cells := nb.cells.take s.toNat ++ nb.cells.drop e.toNat })
  | Except.ok _ => (Except.error "non-integer range", nb)

/-- Modelled from the spec: `NotebookService.replaceCells`. §4.2: removes
`[start, end)` and inserts the new cells at `start` as one operation; §4.1/§7:
a validation error aborts with nothing applied. The post-replace execution
step is abstracted by `execStep` as in `insertCells`. -/
def replaceCells (validator : Int → Except String (JNum × JNum × List Cell))
    (noexec : Bool) (execStep : Notebook → Int × Int → Notebook) (nb : Notebook) :
    Except String String × Notebook :=
  match validator nb.cells.length with
  | Except.error e => (Except.error e, nb)
  | Except.ok (JNum.int s, JNum.int e, newCells) =>
      let replaced : Notebook := { cells := nb.cells.take s.toNat ++ newCells ++ nb.cells.drop e.toNat }
      let range : Int × Int := (s, s + newCells.length)
      if noexec then (Except.ok "Cells replaced", replaced)
      else (Except.ok "Cells replaced", execStep replaced range)
  | Except.ok _ => (Except.error "non-integer range", nb)

/-- Modelled from the spec: `NotebookService.modifyCellContent`. §4.2
`modify(index, content)`: replaces only the content of one existing cell in
place, keeping its kind and language, and clears prior output records; §4.1:
the index validator runs against the live count first and a failure aborts
with nothing applied. Execution of the modified cell (run when the cell is
code and `noexec` is false) is abstracted by `execStep`. -/
def modifyCellContent (validator : Int → Except String JNum) (content : String)
    (noexec : Bool) (execStep : Notebook → Nat → Notebook) (nb : Notebook) :
    Except String (String × Notebook) :=
  match validator nb.cells.length with
  | Except.error e => Except.error e
  | Except.ok (JNum.int i) =>
      match nb.cells[i.toNat]? with
      | none => Except.error "Cell index is out of bounds"
      | some old =>
          let modified : Notebook :=
            { cells := nb.cells.set i.toNat { kind := old.kind, content := content, outputs := [] } }
          if noexec then Except.ok ("Cell content modified", modified)
          else if old.kind = CellKind.code then
            Except.ok ("Cell content modified", execStep modified i.toNat)
          else Except.ok ("Cell content modified", modified)
  | Except.ok JNum.nan => Except.error "non-integer index"

end NotebookService

/-- The per-cell behaviour of the external execution engine for one request:
`terminalAt i` is the wall-clock instant (in abstract units from request
start) at which cell `i` reaches a terminal state (`none` = never), and
`output i` is the rendered output captured at that point. Markdown cells are
immediately terminal, which an instance models as `terminalAt i = some 0`. -/
structure EngineBehavior where
  terminalAt : Nat → Option Nat
  output : Nat → String

/-- One entry of an execution response: either the captured output of a cell
that reached a terminal state within the budget, or a timeout indication for
a cell still running when the budget elapsed. -/
inductive CellExecReport where
  | completed (index : Nat) (out : String)
  | timedOut (index : Nat)
deriving DecidableEq, Repr

/-- Whether a report entry is a timeout indication. -/
def CellExecReport.isTimedOut : CellExecReport → Bool
  | CellExecReport.timedOut _ => true
  | CellExecReport.completed _ _ => false

/-- Modelled from the spec: the Execution Waiter (§4.3; `notebook.ts` is not
in the source tree). It submits cells `[startIndex, endIndex)` in index
order, waits for the per-cell terminal signals under a single wall-clock
budget for the whole range, and reports, in index order, the captured output
of every cell that reached a terminal state within the budget and a timeout
indication for every cell that did not. The whole-range timeout flag is set
exactly when some cell in range failed to reach a terminal state in time. -/
def waiterReport (eng : EngineBehavior) (timeoutBudget : Nat) (i : Nat) : CellExecReport :=
  match eng.terminalAt i with
  | some t => if t ≤ timeoutBudget then CellExecReport.completed i (eng.output i) else CellExecReport.timedOut i
  | none => CellExecReport.timedOut i

def runWaiter (eng : EngineBehavior) (startIndex endIndex : Nat) (timeoutBudget : Nat) :
    List CellExecReport × Bool :=
  let reports := (List.range' startIndex (endIndex - startIndex)).map (waiterReport eng timeoutBudget)
  (reports, reports.any CellExecReport.isTimedOut)

/-- Write one report's captured output into the document (a completed cell's
output records are replaced wholesale; a timed-out cell is left as-is). -/
def applyReport (nb : Notebook) : CellExecReport → Notebook
  | CellExecReport.completed i out =>
      match nb.cells[i]? with
      | some c => { cells := nb.cells.set i { kind := c.kind, content := c.content, outputs := [out] } }
      | none => nb
  | CellExecReport.timedOut _ => nb

def applyReports (nb : Notebook) (rs : List CellExecReport) : Notebook :=
  rs.foldl applyReport nb

/-- Modelled from the spec: `NotebookService.executeCells` (§4.5 execute row):
validate the range against the live count, run the Execution Waiter over it,
write captured outputs back, and report `ExecutionTimeout` alongside the
per-cell reports when the budget elapsed. A validation error aborts with
nothing applied. The `NaN` branch is arbitrary; no claim depends on it. -/
def NotebookService.executeCells (validator : Int → Except String (JNum × JNum))
    (eng : EngineBehavior) (timeoutSeconds : Nat) (nb : Notebook) :
    Except String (List CellExecReport × Bool) × Notebook :=
  match validator nb.cells.length with
  | Except.error e => (Except.error e, nb)
  | Except.ok (JNum.int s, JNum.int e) =>
      let result := runWaiter eng s.toNat e.toNat timeoutSeconds
      (Except.ok result, applyReports nb result.1)
  | Except.ok _ => (Except.error "non-integer range", nb)

/-- Modelled from the spec: the Output Normalizer's truncation rule (§4.4;
`notebook.ts` is not in the source tree): every rendered string longer than
the configured `maxOutputSize` is truncated to that many characters, with an
explicit marker appended indicating how many characters were omitted. -/
def truncationMarker (omitted : Nat) : String :=
  "\n... (truncated " ++ toString omitted ++ " chars)"

def normalizeOutput (maxOutputSize : Nat) (s : String) : String :=
  if s.length > maxOutputSize then
    s.take maxOutputSize ++ truncationMarker (s.length - maxOutputSize)
  else s

/-- The input record of `modify_notebook_cell_content` before coercion
(`extension.ts` lines 126-147): each field is an arbitrary JavaScript value. -/
structure ModifyArgs where
  cell_index : JSVal
  content : JSVal
  noexec : JSVal
deriving DecidableEq, Repr

/-- The input record of `insert_notebook_cells` as far as its scalar fields
go (`extension.ts` lines 66-81). -/
structure InsertArgs where
  insert_position : JSVal
  noexec : JSVal
deriving DecidableEq, Repr

/-- The input record of `replace_notebook_cells` as far as its scalar fields
go (`extension.ts` lines 89-113). -/
structure ReplaceArgs where
  start_index : JSVal
  end_index : JSVal
  noexec : JSVal
deriving DecidableEq, Repr

/-- `const noexec = input.noexec === true` in the `insert_notebook_cells`
handler (`extension.ts` line 74). -/
def insertArgsNoexec (args : InsertArgs) : Bool :=
  strictEqTrue args.noexec

/-- `const noexec = input.noexec === true` in the `replace_notebook_cells`
handler (`extension.ts` line 98). -/
def replaceArgsNoexec (args : ReplaceArgs) : Bool :=
  strictEqTrue args.noexec

/-- `const noexec = input.noexec === true` in the `modify_notebook_cell_content`
handler (`extension.ts` line 134). -/
def modifyArgsNoexec (args : ModifyArgs) : Bool :=
  strictEqTrue args.noexec

/-- The `modify_notebook_cell_content` handler (`extension.ts` lines 126-153,
identically `part_000` lines 315-355): the missing-parameter guard
(`!input || input.cell_index === undefined || !input.content`) runs first,
then the inputs are coerced, and the service is invoked with the index
validator; any thrown error is caught and turned into an error-flagged
response, leaving the document as it was. The Roo-layer response shape
(explicit `isError`) is used. -/
def modifyHandler (execStep : Notebook → Nat → Notebook) (nb : Notebook)
    (args : Option ModifyArgs) : ToolResponse × Notebook :=
  let run : Except String (String × Notebook) :=
    match args with
    | none => Except.error "Missing required parameters: cell_index and content"
    | some a =>
        if a.cell_index = JSVal.undef ∨ truthy a.content = false then
          Except.error "Missing required parameters: cell_index and content"
        else
          let cellIndex := toNumber a.cell_index
          let content := jsToString a.content
          let noexec := modifyArgsNoexec a
          NotebookService.modifyCellContent
            (fun cellCount => modifyIndexValidator cellIndex cellCount)
            content noexec execStep nb
  match run with
  | Except.ok (text, nb') => ({ text := text, isError := false }, nb')
  | Except.error e => ({ text := "Error modifying cell content: " ++ e, isError := true }, nb)

/-- The closure passed by `replace_notebook_cells` performs the same two
bounds checks as `rangeValidator` and returns the record
`{startIndex, endIndex, cells}` (`extension.ts` lines 101-109). -/
def replaceRangeValidator (startIndex endIndex : JNum) (newCells : List Cell)
    (cellCount : Int) : Except String (JNum × JNum × List Cell) :=
  match rangeValidator startIndex endIndex cellCount with
  | Except.error e => Except.error e
  | Except.ok (s, e) => Except.ok (s, e, newCells)

/-- Sample fixtures used by witness instantiations. -/
def sampleCell : Cell :=
  { kind := CellKind.code, content := "x = 1", outputs := [] }

def sampleNotebook : Notebook :=
  { cells := [sampleCell, sampleCell, sampleCell] }

def sampleEngine : EngineBehavior :=
  { terminalAt := fun i => if i = 0 then some 1 else if i = 1 then some 2 else none
    output := fun i => "out" ++ toString i }

lemma rangeValidator_int_isOk (s e c : Int) :
    isOkE (rangeValidator (JNum.int s) (JNum.int e) c) = true ↔
      0 ≤ s ∧ s < c ∧ s < e ∧ e ≤ c := by
  simp only [rangeValidator, jlt, jge, jle, jgt]
  by_cases h1 : s < 0 <;> by_cases h2 : s ≥ c <;> by_cases h3 : e ≤ s <;> by_cases h4 : e > c <;>
    simp [h1, h2, h3, h4, isOkE] <;> omega

lemma exists_error_of_isOkE_false {ε α : Type} {x : Except ε α} (h : isOkE x = false) :
    ∃ msg, x = Except.error msg := by
  cases x with
  | ok v => simp [isOkE] at h
  | error msg => exact ⟨msg, rfl⟩

/-- C1: for `replace_notebook_cells`, `execute_notebook_cells` and
`delete_notebook_cells`, given the current cell count, the half-open range
`[start_index, end_index)` passes validation iff `0 ≤ start < count` and
`start < end ≤ count`; in particular `start = end` always fails; and on a
failed validation each of the three operations reports an error and leaves
the document unchanged. -/
theorem range_ops_accept_iff_bounds (s e : Int) (nb : Notebook) (newCells : List Cell)
    (noexec : Bool) (execStep : Notebook → Int × Int → Notebook)
    (eng : EngineBehavior) (timeout : Nat) :
    (isOkE (rangeValidator (JNum.int s) (JNum.int e) (nb.cells.length : Int)) = true ↔
      0 ≤ s ∧ s < (nb.cells.length : Int) ∧ s < e ∧ e ≤ (nb.cells.length : Int))
    ∧ (s = e → isOkE (rangeValidator (JNum.int s) (JNum.int e) (nb.cells.length : Int)) = false)
    ∧ (¬(0 ≤ s ∧ s < (nb.cells.length : Int) ∧ s < e ∧ e ≤ (nb.cells.length : Int)) →
        (isOkE (NotebookService.deleteCells (rangeValidator (JNum.int s) (JNum.int e)) nb).1 = false
          ∧ (NotebookService.deleteCells (rangeValidator (JNum.int s) (JNum.int e)) nb).2 = nb)
        ∧ (isOkE (NotebookService.replaceCells (replaceRangeValidator (JNum.int s) (JNum.int e) newCells) noexec execStep nb).1 = false
          ∧ (NotebookService.replaceCells (replaceRangeValidator (JNum.int s) (JNum.int e) newCells) noexec execStep nb).2 = nb)
        ∧ (isOkE (NotebookService.executeCells (rangeValidator (JNum.int s) (JNum.int e)) eng timeout nb).1 = false
          ∧ (NotebookService.executeCells (rangeValidator (JNum.int s) (JNum.int e)) eng timeout nb).2 = nb)) := by
  refine ⟨rangeValidator_int_isOk s e _, ?_, ?_⟩
  · intro hse
    rcases hb : isOkE (rangeValidator (JNum.int s) (JNum.int e) (nb.cells.length : Int)) with _ | _
    · rfl
    · exact absurd ((rangeValidator_int_isOk s e _).mp hb) (by omega)
  · intro hnot
    have hfalse : isOkE (rangeValidator (JNum.int s) (JNum.int e) (nb.cells.length : Int)) = false := by
      rcases hb : isOkE (rangeValidator (JNum.int s) (JNum.int e) (nb.cells.length : Int)) with _ | _
      · rfl
      · exact absurd ((rangeValidator_int_isOk s e _).mp hb) hnot
    obtain ⟨msg, hmsg⟩ := exists_error_of_isOkE_false hfalse
    refine ⟨⟨?_, ?_⟩, ⟨?_, ?_⟩, ⟨?_, ?_⟩⟩ <;>
      simp [NotebookService.deleteCells, NotebookService.replaceCells,
        NotebookService.executeCells, replaceRangeValidator, hmsg, isOkE]

/-- Witness for C1 at start = end = 1 on a 3-cell notebook. -/
theorem range_ops_accept_iff_bounds_witness :
    isOkE (rangeValidator (JNum.int 1) (JNum.int 1) (sampleNotebook.cells.length : Int)) = false
    ∧ (NotebookService.deleteCells (rangeValidator (JNum.int 1) (JNum.int 1)) sampleNotebook).2 = sampleNotebook := by
  have h := range_ops_accept_iff_bounds 1 1 sampleNotebook [] true (fun x _ => x) sampleEngine 30
  exact ⟨h.2.1 rfl, ((h.2.2 (by decide)).1).2⟩

/-- C2 (divergence witness): `createToolResult` never reads its `isError`
parameter, so the result returned by every catch branch of the `vscode.lm`
tool handlers is byte-identical to a success result with the same text — the
error payload carries no error tag, although every catch branch passes
`true` with the clear intent of setting one. -/
theorem createToolResult_ignores_isError (text : String) :
    createToolResult text true = createToolResult text false :=
  rfl

/-- C6: the `modify_notebook_cell_content` index validator accepts
`cell_index` iff `0 ≤ cell_index < count`; in particular index 0 passes on
every non-empty notebook. -/
theorem modify_index_accept_iff_bounds (i c : Int) :
    (isOkE (modifyIndexValidator (JNum.int i) c) = true ↔ 0 ≤ i ∧ i < c)
    ∧ (0 < c → isOkE (modifyIndexValidator (JNum.int 0) c) = true) := by
  constructor
  · simp only [modifyIndexValidator, jlt, jge]
    by_cases h1 : i < 0 <;> by_cases h2 : i ≥ c <;> simp [h1, h2, isOkE] <;> omega
  · intro hc
    simp only [modifyIndexValidator, jlt, jge]
    have h1 : ¬((0 : Int) < 0) := by omega
    have h2 : ¬((0 : Int) ≥ c) := by omega
    simp [h1, h2, isOkE]

/-- Witness for C6 at index 0 on a count of 3. -/
theorem modify_index_accept_iff_bounds_witness :
    isOkE (modifyIndexValidator (JNum.int 0) 3) = true := by
  have h := modify_index_accept_iff_bounds 0 3
  exact h.2 (by omega)

/-- C8 (counterexample): a `NaN` start index does not disable the end-index
checks — with `start_index = NaN`, `end_index = 10` and 5 cells, the
comparison `endIndex > cellCount` is `true` and the closure throws, so it is
not the case that every call with a `NaN` operand passes validation. -/
theorem rangeValidator_nan_can_still_throw :
    isOkE (rangeValidator JNum.nan (JNum.int 10) 5) = false
    ∧ jgt (JNum.int 10) (JNum.int 5) = true := by
  constructor <;> rfl

/-- C8 (amended): when both `start_index` and `end_index` coerce to `NaN`,
every bounds comparison in the closure evaluates to `false`, so the closure
throws no error and the `NaN`-valued range is forwarded to the
`NotebookService`, whatever the current cell count. -/
theorem rangeValidator_forwards_nan_pair (cellCount : Int) :
    rangeValidator JNum.nan JNum.nan cellCount = Except.ok (JNum.nan, JNum.nan)
    ∧ jlt JNum.nan (JNum.int 0) = false
    ∧ jge JNum.nan (JNum.int cellCount) = false
    ∧ jle JNum.nan JNum.nan = false
    ∧ jgt JNum.nan (JNum.int cellCount) = false := by
  exact ⟨rfl, rfl, rfl, rfl, rfl⟩

/-- C10: in the `insert_notebook_cells`, `replace_notebook_cells` and
`modify_notebook_cell_content` handlers, the `noexec` flag forwarded to the
`NotebookService` is `true` iff the raw `noexec` input is the boolean value
`true`; any other value (absent, a string such as `"true"`, or a number)
yields `false`, so execution proceeds by default. -/
theorem noexec_iff_boolean_true (ia : InsertArgs) (ra : ReplaceArgs) (ma : ModifyArgs) :
    (insertArgsNoexec ia = true ↔ ia.noexec = JSVal.boolean true)
    ∧ (replaceArgsNoexec ra = true ↔ ra.noexec = JSVal.boolean true)
    ∧ (modifyArgsNoexec ma = true ↔ ma.noexec = JSVal.boolean true) := by
  refine ⟨?_, ?_, ?_⟩ <;>
    simp only [insertArgsNoexec, replaceArgsNoexec, modifyArgsNoexec]
  · rcases ia with ⟨p, v⟩
    rcases v with _ | b | n | s' <;> first | (cases b <;> simp [strictEqTrue]) | simp [strictEqTrue]
  · rcases ra with ⟨p, q, v⟩
    rcases v with _ | b | n | s' <;> first | (cases b <;> simp [strictEqTrue]) | simp [strictEqTrue]
  · rcases ma with ⟨p, q, v⟩
    rcases v with _ | b | n | s' <;> first | (cases b <;> simp [strictEqTrue]) | simp [strictEqTrue]

/-- C3: if the timeout budget elapses before every cell in the executed range
reaches a terminal state, the waiter reports the whole-range timeout, the
response still contains the captured output of every cell that completed
within the budget, and the response is never empty. -/
theorem runWaiter_timeout_keeps_partial_results (eng : EngineBehavior)
    (s e budget : Nat) (hrange : s < e)
    (hpending : ∃ i, s ≤ i ∧ i < e ∧ ¬∃ t, eng.terminalAt i = some t ∧ t ≤ budget) :
    (runWaiter eng s e budget).2 = true
    ∧ (runWaiter eng s e budget).1 ≠ []
    ∧ ∀ i t, s ≤ i → i < e → eng.terminalAt i = some t → t ≤ budget →
        CellExecReport.completed i (eng.output i) ∈ (runWaiter eng s e budget).1 := by
  have hmem : ∀ i, s ≤ i → i < e → i ∈ List.range' s (e - s) := by
    intro i h1 h2
    rw [List.mem_range'_1]
    omega
  refine ⟨?_, ?_, ?_⟩
  · obtain ⟨i, h1, h2, h3⟩ := hpending
    have hfi : waiterReport eng budget i = CellExecReport.timedOut i := by
      cases ht : eng.terminalAt i with
      | none => simp [waiterReport, ht]
      | some t =>
          have hgt : ¬ t ≤ budget := fun hle => h3 ⟨t, ht, hle⟩
          simp [waiterReport, ht, hgt]
    simp only [runWaiter, List.any_eq_true]
    exact ⟨CellExecReport.timedOut i, hfi ▸ List.mem_map_of_mem _ (hmem i h1 h2), rfl⟩
  · have hlen : (runWaiter eng s e budget).1.length = e - s := by
      simp [runWaiter, List.length_range']
    intro hnil
    rw [hnil] at hlen
    simp at hlen
    omega
  · intro i t h1 h2 ht htle
    have hfi : waiterReport eng budget i = CellExecReport.completed i (eng.output i) := by
      simp [waiterReport, ht, htle]
    simpa only [runWaiter] using hfi ▸ List.mem_map_of_mem (waiterReport eng budget) (hmem i h1 h2)

/-- Witness for C3: the spec scenario — a 3-cell range where cells 0 and 1
complete (at instants 1 and 2) and cell 2 never terminates within the
30-unit budget: the timeout is reported, the response is non-empty, and the
outputs of cells 0 and 1 are present. -/
theorem runWaiter_timeout_keeps_partial_results_witness :
    (runWaiter sampleEngine 0 3 30).2 = true
    ∧ (runWaiter sampleEngine 0 3 30).1 ≠ []
    ∧ CellExecReport.completed 0 (sampleEngine.output 0) ∈ (runWaiter sampleEngine 0 3 30).1
    ∧ CellExecReport.completed 1 (sampleEngine.output 1) ∈ (runWaiter sampleEngine 0 3 30).1 := by
  have h := runWaiter_timeout_keeps_partial_results sampleEngine 0 3 30 (by omega)
    ⟨2, by omega, by omega, ?_⟩
  · exact ⟨h.1, h.2.1,
      h.2.2 0 1 (by omega) (by omega) rfl (by omega),
      h.2.2 1 2 (by omega) (by omega) rfl (by omega)⟩
  · rintro ⟨t, ht, -⟩
    simp [sampleEngine] at ht

/-- C4 (counterexample): truncation is not idempotent. With
`maxOutputSize = 1`, truncating `"ab"` yields `"a"` plus a marker; that
result is itself longer than 1 character, so normalizing it again truncates
once more and appends a second marker, producing a different string. -/
theorem normalizeOutput_not_idempotent :
    normalizeOutput 1 (normalizeOutput 1 "ab") ≠ normalizeOutput 1 "ab" := by
  decide

/-- C4 (amended): the normalizer is the identity — and hence idempotent — on
every string whose length does not exceed `maxOutputSize`; an
already-truncated string, however, exceeds `maxOutputSize` (the marker is
appended after cutting to exactly `maxOutputSize` characters) and is
truncated a second time when re-normalized, as the counterexample shows. -/
theorem normalizeOutput_identity_within_cap (maxOutputSize : Nat) (s : String)
    (h : s.length ≤ maxOutputSize) :
    normalizeOutput maxOutputSize s = s
    ∧ normalizeOutput maxOutputSize (normalizeOutput maxOutputSize s) = normalizeOutput maxOutputSize s := by
  have hng : ¬ s.length > maxOutputSize := by omega
  constructor
  · simp [normalizeOutput, hng]
  · simp [normalizeOutput, hng]

/-- Witness for the amended C4 at `maxOutputSize = 5`, `s = "ab"`. -/
theorem normalizeOutput_identity_within_cap_witness :
    normalizeOutput 5 "ab" = "ab"
    ∧ normalizeOutput 5 (normalizeOutput 5 "ab") = normalizeOutput 5 "ab" :=
  normalizeOutput_identity_within_cap 5 "ab" (by decide)

/-- C5: for `insert_notebook_cells`, omitting `insert_position` is the same
call as passing `insert_position = current cell count`: the two calls return
identical results and leave the document in the same state; and the omitted
position appends, i.e. (taking the pure mutation, `noexec = true`) the
post-state is the original cells followed by the new cells, occupying the
range `[count, count + len(new))`. -/
theorem insertCells_omitted_position_is_append (execStep : Notebook → Int × Int → Notebook)
    (newCells : List Cell) (noexec : Bool) (nb : Notebook) :
    NotebookService.insertCells execStep newCells none noexec nb
      = NotebookService.insertCells execStep newCells (some (nb.cells.length : Int)) noexec nb
    ∧ NotebookService.insertCells execStep newCells none true nb
      = Except.ok (((nb.cells.length : Int), (nb.cells.length : Int) + newCells.length),
          { cells := nb.cells ++ newCells }) := by
  constructor
  · rfl
  · have hpos : ¬((nb.cells.length : Int) < 0 ∨ (nb.cells.length : Int) > (nb.cells.length : Int)) := by
      omega
    simp [NotebookService.insertCells, Option.getD, hpos, Int.toNat_natCast,
      List.take_length, List.drop_length]

/-- C7: when the caller has configured neither value, `getExtensionSettings`
yields `maxOutputSize = 2000` and `timeoutSeconds = 30`. Each tool handler
invokes `getExtensionSettings` inside its `invoke` body, so the values are
read from the configuration current at call time (reflected here by the
`Config` argument being the one supplied at each call). -/
theorem getExtensionSettings_defaults (config : Config)
    (hmax : config.maxOutputSize = none) (htime : config.timeoutSeconds = none) :
    getExtensionSettings config = { maxOutputSize := 2000, timeoutSeconds := 30 } := by
  simp [getExtensionSettings, configGet, hmax, htime]

/-- Witness for C7 at the wholly unconfigured store. -/
theorem getExtensionSettings_defaults_witness :
    getExtensionSettings { maxOutputSize := none, timeoutSeconds := none }
      = { maxOutputSize := 2000, timeoutSeconds := 30 } :=
  getExtensionSettings_defaults { maxOutputSize := none, timeoutSeconds := none } rfl rfl

/-- C9: `modify_notebook_cell_content` treats the empty string as a missing
`content` parameter (the guard tests JavaScript truthiness): every call whose
`content` is `""` or absent is rejected with the missing-parameters error
before the index validator or any mutation runs, and the document is left
unchanged — so a cell's content cannot be cleared to empty via modify. -/
theorem modifyHandler_rejects_empty_content (execStep : Notebook → Nat → Notebook)
    (nb : Notebook) (a : ModifyArgs)
    (h : a.content = JSVal.string "" ∨ a.content = JSVal.undef) :
    modifyHandler execStep nb (some a)
      = ({ text := "Error modifying cell content: Missing required parameters: cell_index and content"
           isError := true }, nb) := by
  have hfalsy : truthy a.content = false := by
    rcases h with h | h <;> rw [h] <;> rfl
  simp [modifyHandler, hfalsy]

/-- Witness for C9: content `""` on a 3-cell notebook with a valid index 0. -/
theorem modifyHandler_rejects_empty_content_witness :
    modifyHandler (fun x _ => x) sampleNotebook
        (some { cell_index := JSVal.number (JNum.int 0), content := JSVal.string "", noexec := JSVal.undef })
      = ({ text := "Error modifying cell content: Missing required parameters: cell_index and content"
           isError := true }, sampleNotebook) :=
  modifyHandler_rejects_empty_content (fun x _ => x) sampleNotebook
    { cell_index := JSVal.number (JNum.int 0), content := JSVal.string "", noexec := JSVal.undef }
    (Or.inl rfl)
